import Mathlib

/-!
Shallow embedding of the LangGraph demo scripts of this repository:
the arithmetic agent (`src/langgraph.ts`) and the image-crop approval
loop (second script of `src/calculator.ts`).  Messages, tool calls, node
functions, routers, per-field reducers and a step semantics for the
approval-loop graph are translated from the TypeScript source; external
effects (the chat model, the structured-output model, the `sharp` image
library) are passed in as oracle functions.  Theorems checking the
specification follow the definitions.
-/

namespace TryLangGraph

/-- One element of a structured (array-valued) message content, as used by
the image-crop script: a `text` part or an `image_url` part. -/
inductive ContentPart
  | text (s : String)
  | imageUrl (url : String)
  deriving DecidableEq

/-- Message content: either a plain string or an array of parts
(`Array.isArray(content)` distinguishes the two in the source). -/
inductive Content
  | str (s : String)
  | parts (ps : List ContentPart)
  deriving DecidableEq

/-- Crop rectangle, the argument of the `cropImage` tool. -/
structure CropArea where
  x : Int
  y : Int
  width : Int
  height : Int
  deriving DecidableEq

/-- Structured arguments of a tool call.  A model-issued call may carry
arguments of any shape; the zod schema of each tool accepts exactly one of
these shapes and rejects the rest (`malformed` stands for any argument
object matching no schema). -/
inductive ToolArgs
  | add (a b : Int)
  | sqrtArg (value : Int)
  | crop (area : CropArea)
  | malformed
  deriving DecidableEq

/-- A tool-call request carried by an assistant message: tool name,
structured arguments and a correlation id. -/
structure ToolCall where
  name : String
  args : ToolArgs
  id : String
  deriving DecidableEq

/-- A conversation entry: `HumanMessage`, `SystemMessage`, an assistant
(`AIMessage`, with an optional `tool_calls` array) or a `ToolMessage`
carrying the correlation id of the request it answers. -/
inductive Message
  | human (content : Content)
  | system (content : Content)
  | ai (content : Content) (tool_calls : Option (List ToolCall))
  | toolMessage (content : Content) (tool_call_id : String)
  deriving DecidableEq

/-- `isAIMessage` of `@langchain/core/messages`. -/
def isAIMessage : Message → Bool
  | .ai _ _ => true
  | _ => false

/-- The content of any message. -/
def contentOf : Message → Content
  | .human c => c
  | .system c => c
  | .ai c _ => c
  | .toolMessage c _ => c

/-- The `tool_calls` field: present only on assistant messages
(`lastMessage.tool_calls` is `undefined` on the others). -/
def toolCallsOf : Message → Option (List ToolCall)
  | .ai _ tc => tc
  | _ => none

/-- The `tool_call_id` of a `ToolMessage`, absent on every other kind. -/
def toolCallIdOf : Message → Option String
  | .toolMessage _ cid => some cid
  | _ => none

/-- Whether a message is a tool-result entry. -/
def isToolResultMsg : Message → Bool
  | .toolMessage _ _ => true
  | _ => false

/-- JS truthiness of `lastMessage.tool_calls?.length`: false when
`tool_calls` is `undefined` or the array is empty. -/
def hasToolCalls : Option (List ToolCall) → Bool
  | none => false
  | some l => !l.isEmpty

/-- `state.messages.at(-1)`: the last element, `undefined` on an empty
log. -/
def lastMessage (msgs : List Message) : Option Message :=
  msgs.getLast?

/-- JS truthiness of a `string | null` value: `null` and `""` are falsy. -/
def isFalsyStrOpt : Option String → Bool
  | none => true
  | some s => s.isEmpty

/-- Length of a `string | null` value, `0` for `null` (only consulted after
a truthiness guard in the source). -/
def strLen : Option String → Nat
  | none => 0
  | some s => s.length

/-- What a router returns: the name of the next node, or the `END`
sentinel. -/
inductive RouteTarget
  | node (name : String)
  | END
  deriving DecidableEq

/-- A reply of the tool-calling chat model (`modelWithTools.invoke`):
always an assistant message, with optional tool calls. -/
structure AIReply where
  content : Content
  tool_calls : Option (List ToolCall)
  deriving DecidableEq

/-- The assistant message appended for a model reply. -/
def AIReply.toMessage (r : AIReply) : Message :=
  .ai r.content r.tool_calls

/-- Failures observable while running the embedded code.  `typeError` is
the JS `TypeError` raised by `langgraph.ts` when `toolsByName[name]` is
`undefined` and `.invoke` is read off it; `toolFailure` is a validation or
execution error thrown by `tool.invoke`.  `protocolError` is modelled from
the spec (which postulates a `ProtocolError` for broken tool-call
correlation): the source defines no such error and never raises one; the
constructor exists only so that its absence can be stated. -/
inductive RunError
  | typeError
  | toolFailure (msg : String)
  | protocolError
  deriving DecidableEq

/-- The `messages` reducer of both scripts:
`(left, right) => left.concat(right)`. -/
def messagesReducer (left right : List Message) : List Message :=
  left ++ right

/-- The `messages` field after folding a sequence of partial updates into
an initial list, one step at a time, with the `messages` reducer. -/
def finalMessages (init : List Message) (updates : List (List Message)) :
    List Message :=
  updates.foldl messagesReducer init

/-! ## The arithmetic agent (`src/langgraph.ts`) -/

namespace Arith

/-- Session state of the arithmetic agent: only the `messages` channel. -/
structure State where
  messages : List Message
  deriving DecidableEq

/-- The `add` tool body `({ a, b }) => a + b`, behind its zod schema:
arguments of any other shape fail validation and make `tool.invoke`
throw.  A numeric result is stringified into the tool message content. -/
def addFn : ToolArgs → Except String String
  | .add a b => .ok (toString (a + b))
  | _ => .error "Received tool input did not match expected schema"

/-- `toolsByName`: the registry of the script, holding only `add`. -/
def toolsByName (name : String) : Option (ToolArgs → Except String String) :=
  if name = "add" then some addFn else none

/-- System directive of `llmNode`. -/
def systemDirective : Message :=
  .system (.str
    "You are a helpful assistant tasked with performing arithmetic on a set of inputs.")

/-- `llmNode`: invokes the tool-bound model on the system directive plus
the whole message log and returns a partial update appending the reply.
The model is an oracle argument. -/
def llmNode (invoke : List Message → AIReply) (s : State) : List Message :=
  [(invoke (systemDirective :: s.messages)).toMessage]

/-- The loop body of `toolNode`: for each tool call, look the tool up by
name (an unregistered name makes the JS crash with a `TypeError`), invoke
it (a validation/execution failure propagates), and push one `ToolMessage`
carrying the call result and the call id, in request order. -/
def runToolCalls : List ToolCall → Except RunError (List Message)
  | [] => .ok []
  | tc :: rest =>
    match toolsByName tc.name with
    | none => .error .typeError
    | some f =>
      match f tc.args with
      | .error e => .error (.toolFailure e)
      | .ok v =>
        match runToolCalls rest with
        | .error e => .error e
        | .ok ms => .ok (Message.toolMessage (.str v) tc.id :: ms)

/-- `toolNode` of `langgraph.ts`: returns `{ messages: [] }` when the last
message is absent or not an assistant message, otherwise runs every tool
call of the last message (`tool_calls ?? []`). -/
def toolNode (s : State) : Except RunError (List Message) :=
  match lastMessage s.messages with
  | none => .ok []
  | some last =>
    if !isAIMessage last then .ok []
    else runToolCalls ((toolCallsOf last).getD [])

/-- `shouldContinue`: `END` when the last message is absent or not an
assistant message; `"toolNode"` when it carries tool calls; `END`
otherwise. -/
def shouldContinue (s : State) : RouteTarget :=
  match lastMessage s.messages with
  | none => .END
  | some last =>
    if !isAIMessage last then .END
    else if hasToolCalls (toolCallsOf last) then .node "toolNode"
    else .END

/-- Whether a tool call resolves: its name is registered and its arguments
pass the tool schema. -/
def resolvesCall (tc : ToolCall) : Bool :=
  match toolsByName tc.name with
  | none => false
  | some f =>
    match f tc.args with
    | .ok _ => true
    | .error _ => false

/-- The tool message `toolNode` produces for one resolving call (junk
placeholder on non-resolving calls, which abort the node instead). -/
def expectedToolMessage (tc : ToolCall) : Message :=
  match toolsByName tc.name with
  | none => .toolMessage (.str "") tc.id
  | some f =>
    match f tc.args with
    | .error _ => .toolMessage (.str "") tc.id
    | .ok v => .toolMessage (.str v) tc.id

end Arith

/-! ## The image-crop approval loop (second script of `src/calculator.ts`) -/

namespace Crop

/-- Approval status enum of the `approval` channel. -/
inductive ApprovalStatus
  | pending
  | approved
  | rejected
  deriving DecidableEq

/-- The approval record `{ status, feedback }`. -/
structure Approval where
  status : ApprovalStatus
  feedback : Option String
  deriving DecidableEq

/-- Session state of the approval-loop graph (`MessagesState` of the
script): the message log plus the three custom channels with their
defaults. -/
structure State where
  messages : List Message
  sourceImageDataUri : Option String
  croppedImageDataUri : Option String
  approval : Approval
  deriving DecidableEq

/-- A partial state update returned by a node.  An outer `none` means the
node did not mention the channel at all (its reducer is not consulted);
`some v` means the node returned value `v` for it (with `v = none` for an
explicit `null`). -/
structure Update where
  messages : List Message := []
  sourceImageDataUri : Option (Option String) := none
  croppedImageDataUri : Option (Option String) := none
  approval : Option Approval := none

/-- Merging one partial update into the state, channel by channel with
each channel's reducer: `messages` concatenates; the scalar channels use
`(_, right) => right ?? null` and `(_, right) => right ?? default`,
i.e. replace with the supplied value; channels absent from the update are
untouched. -/
def applyUpdate (s : State) (u : Update) : State :=
  { messages := messagesReducer s.messages u.messages
    sourceImageDataUri :=
      match u.sourceImageDataUri with
      | none => s.sourceImageDataUri
      | some v => v
    croppedImageDataUri :=
      match u.croppedImageDataUri with
      | none => s.croppedImageDataUri
      | some v => v
    approval :=
      match u.approval with
      | none => s.approval
      | some a => a }

/-- The `image_url` urls of one message content, in order: the inner loop
of the extraction in `llmNode` visits exactly the `image_url` parts of an
array-valued content (a string content has none). -/
def contentUrls : Content → List String
  | .str _ => []
  | .parts ps =>
    ps.filterMap fun p =>
      match p with
      | .imageUrl u => some u
      | _ => none

/-- All `image_url` urls occurring in a message log, in order. -/
def logUrls (msgs : List Message) : List String :=
  (msgs.map fun m => contentUrls (contentOf m)).flatten

/-- One step of the source-image extraction of `llmNode`: skip a falsy
url; replace the current value when it is falsy (null or empty) or the
url is strictly longer. -/
def updateSourceUri (cur : Option String) (url : String) : Option String :=
  if url = "" then cur
  else if isFalsyStrOpt cur || strLen cur < url.length then some url
  else cur

/-- The full extraction loop of `llmNode`: fold over every message and
every `image_url` part of its content. -/
def extractSourceUri (cur : Option String) (msgs : List Message) :
    Option String :=
  msgs.foldl (fun acc m => (contentUrls (contentOf m)).foldl updateSourceUri acc) cur

/-- The fixed part of the system prompt built by `llmNode`. -/
def cropSystemPromptBase : String :=
  "You are a helpful assistant that can analyze images and crop them based on user requests. Follow this workflow:\n1. Analyze the original image to understand its content and dimensions\n2. Determine the appropriate crop area (x, y, width, height) based on the user\x27s requirements\n3. Use the cropImage tool to perform the crop - you only need to provide the cropArea coordinates"

/-- The system prompt of `llmNode`, amended with the rejection feedback
when `state.approval.feedback` is truthy. -/
def cropSystemPrompt (feedback : Option String) : String :=
  cropSystemPromptBase ++
    (match feedback with
     | none => ""
     | some f =>
       if f = "" then ""
       else "\n\nIMPORTANT: Previous crop attempt was rejected with this feedback:\n\"" ++ f ++ "\"\nPlease adjust your crop parameters accordingly.")

/-- `llmNode` of the image-crop script: scans the whole message log for
the largest image url, builds the (possibly feedback-amended) system
prompt, invokes the tool-bound model (an oracle), and returns a partial
update that appends the reply, rewrites `sourceImageDataUri` with the scan
result, and resets `approval` to pending. -/
def llmNode (invoke : List Message → AIReply) (s : State) : Update :=
  let newSourceImageDataUri := extractSourceUri s.sourceImageDataUri s.messages
  let response :=
    invoke (Message.system (.str (cropSystemPrompt s.approval.feedback)) :: s.messages)
  { messages := [response.toMessage]
    sourceImageDataUri := some newSourceImageDataUri
    approval := some ⟨.pending, none⟩ }

/-- The fixed rejection feedback of the artifact-absence short circuit of
`approverNode`. -/
def noCroppedImageFeedback : String :=
  "No cropped image was produced"

/-- The approval prompt text of `approverNode`. -/
def approvalPrompt : String :=
  "You are an image crop quality validator. Your job is to compare the original image with the cropped result and determine if the crop is appropriate and high quality.\n\nEvaluate the crop based on:\n- Is the subject/main content properly framed and not cut off?\n- Does the crop maintain good composition?\n- Is the aspect ratio reasonable and intentional?\n- Are important elements preserved in the crop?\n\nIf approved is true, provide a brief confirmation in feedback.\nIf approved is false, provide specific feedback about what\x27s wrong (e.g., \"The product is partially cut off on the right side\" or \"The crop removes important context from the top of the image\")."

/-- The structured-output reply shape of the approver model
(`ApprovalSchema`). -/
structure ApprovalResponse where
  approved : Bool
  feedback : String
  deriving DecidableEq

/-- The single human message `approverNode` sends to the structured-output
model: the prompt plus both images. -/
def approverMessages (s : State) : List Message :=
  [ .human (.parts
      [ .text approvalPrompt
      , .text "Original image:"
      , .imageUrl (s.sourceImageDataUri.getD "")
      , .text "Cropped image:"
      , .imageUrl (s.croppedImageDataUri.getD "") ]) ]

/-- `approverNode`: when either image artifact is falsy, short-circuits to
a rejected approval with a fixed feedback, without invoking the model;
otherwise invokes the structured-output model (an oracle) and maps its
boolean verdict to `approved`/`rejected`.  The second component counts the
model invocations the step made. -/
def approverNode (invokeStructured : List Message → ApprovalResponse)
    (s : State) : Update × Nat :=
  if isFalsyStrOpt s.croppedImageDataUri || isFalsyStrOpt s.sourceImageDataUri then
    ({ approval := some ⟨.rejected, some noCroppedImageFeedback⟩ }, 0)
  else
    let response := invokeStructured (approverMessages s)
    ({ approval :=
        some ⟨if response.approved then .approved else .rejected, some response.feedback⟩ },
      1)

/-- Oracles standing for the external effects of the approval-loop graph:
the tool-bound chat model, the structured-output approver model, and the
`sharp` crop performed by the `cropImage` tool body on a source data uri. -/
structure Oracles where
  llmReply : List Message → AIReply
  approveReply : List Message → ApprovalResponse
  cropResult : String → CropArea → Except String String

/-- The `cropImage` tool behind its schema, invoked on one tool call with
the state in `config.configurable`: an unregistered name or malformed
arguments fail; the tool body throws when the source image is falsy, and
otherwise crops via `sharp` (the oracle), returning a data uri. -/
def invokeCropTool (o : Oracles) (s : State) (tc : ToolCall) :
    Except String String :=
  if tc.name ≠ "cropImage" then .error ("Tool \"" ++ tc.name ++ "\" not found.")
  else
    match tc.args with
    | .crop area =>
      if isFalsyStrOpt s.sourceImageDataUri then
        .error "No source image available to crop"
      else o.cropResult (s.sourceImageDataUri.getD "") area
    | _ => .error "Received tool input did not match expected schema"

/-- Modelled from the spec: the prebuilt `ToolNode` class of
`@langchain/langgraph/prebuilt`, whose code is not in this repository.
Per the spec, it appends one tool-result entry per tool-call request of
the latest assistant entry, preserving request order and correlation ids,
and a tool failure is surfaced as a failed tool-result entry rather than
aborting the run. -/
def prebuiltToolNode (o : Oracles) (s : State) : List Message :=
  match lastMessage s.messages with
  | some (.ai _ (some tcs)) =>
    tcs.map fun tc =>
      match invokeCropTool o s tc with
      | .ok v => .toolMessage (.str v) tc.id
      | .error e => .toolMessage (.str ("Error: " ++ e)) tc.id
  | _ => []

/-- The scan of `toolNode` over the tool results: the first string content
starting with `data:image/` becomes the new cropped image (then the loop
breaks). -/
def scanCropped (cur : Option String) : List Message → Option String
  | [] => cur
  | m :: rest =>
    match contentOf m with
    | .str c => if c.startsWith "data:image/" then some c else scanCropped cur rest
    | _ => scanCropped cur rest

/-- `toolNode` of the image-crop script: runs the prebuilt `ToolNode`,
scans its result messages for a data-image payload, and returns a partial
update appending the tool results and rewriting `croppedImageDataUri`. -/
def toolNode (o : Oracles) (s : State) : Update :=
  let toolResultMessages := prebuiltToolNode o s
  let newCroppedImageDataUri := scanCropped s.croppedImageDataUri toolResultMessages
  { messages := toolResultMessages
    croppedImageDataUri := some newCroppedImageDataUri }

/-- `routeAfterLLM`: `END` when the last message is absent or not an
assistant message; `"toolNode"` when it carries tool calls; otherwise
`"approver"`. -/
def routeAfterLLM (s : State) : RouteTarget :=
  match lastMessage s.messages with
  | none => .END
  | some last =>
    if !isAIMessage last then .END
    else if hasToolCalls (toolCallsOf last) then .node "toolNode"
    else .node "approver"

/-- `addRejectionFeedback`: appends one human message interpolating the
rejection feedback (JS prints `null` for a null feedback). -/
def addRejectionFeedback (s : State) : Update :=
  { messages :=
      [ .human (.str
          ("The crop was rejected. Feedback: " ++ s.approval.feedback.getD "null" ++
            "\n\nPlease try again with adjusted crop parameters.")) ] }

/-- `routeAfterApprover`: `approved` routes to `END`, `rejected` to
`"addRejectionFeedback"`, anything else (i.e. `pending`) to `END`. -/
def routeAfterApprover (s : State) : RouteTarget :=
  if s.approval.status = ApprovalStatus.approved then .END
  else if s.approval.status = ApprovalStatus.rejected then .node "addRejectionFeedback"
  else .END

/-- The nodes of the approval-loop graph. -/
inductive Node
  | llmCall
  | toolNode
  | approver
  | addRejectionFeedback
  deriving DecidableEq

/-- The partial update one node step produces on a state. -/
def nodeUpdate (o : Oracles) : Node → State → Update
  | .llmCall, s => llmNode o.llmReply s
  | .toolNode, s => toolNode o s
  | .approver, s => (approverNode o.approveReply s).1
  | .addRejectionFeedback, s => addRejectionFeedback s

/-- Mapping a router result onto the node table of the compiled graph. -/
def targetToNode : RouteTarget → Option Node
  | .END => none
  | .node "llmCall" => some .llmCall
  | .node "toolNode" => some .toolNode
  | .node "approver" => some .approver
  | .node "addRejectionFeedback" => some .addRejectionFeedback
  | .node _ => none

/-- The successor of a node, applied to the merged state: the conditional
edges consult the routers, `toolNode → approver` and
`addRejectionFeedback → llmCall` are static. -/
def nextAfter (n : Node) (merged : State) : Option Node :=
  match n with
  | .llmCall => targetToNode (routeAfterLLM merged)
  | .toolNode => some .approver
  | .approver => targetToNode (routeAfterApprover merged)
  | .addRejectionFeedback => some .llmCall

/-- One step of the graph executor: run the current node, merge its
partial update, pick the successor (`none` is `END`; a terminated run
stays put). -/
def stepGraph (o : Oracles) : Option Node × State → Option Node × State
  | (none, s) => (none, s)
  | (some n, s) =>
    let merged := applyUpdate s (nodeUpdate o n s)
    (nextAfter n merged, merged)

/-- Running the graph executor for a number of steps (a run starts at
`(some .llmCall, s₀)`, the static `START → llmCall` edge). -/
def runGraph (o : Oracles) : Nat → Option Node × State → Option Node × State
  | 0, p => p
  | Nat.succ k, p => runGraph o k (stepGraph o p)

end Crop

/-! ## Derived observation functions and concrete instances -/

/-- The approval status a partial update carries, when it mentions the
`approval` channel at all. -/
def approvalStatusOf (u : Crop.Update) : Option Crop.ApprovalStatus :=
  u.approval.map (·.status)

/-- Whether the source-image extraction either left the current value
unchanged or replaced it with an `image_url` of the log that is strictly
longer than the current value (or the current value was absent). -/
def replacedProperly (cur : Option String) (msgs : List Message) : Bool :=
  Crop.extractSourceUri cur msgs == cur ||
    (Crop.logUrls msgs).any fun v =>
      Crop.extractSourceUri cur msgs == some v &&
        (cur == none || decide (strLen cur < v.length))

/-- A state with an empty cropped-image artifact, for the approver
short-circuit. -/
def c4State : Crop.State := ⟨[], none, none, ⟨.pending, none⟩⟩

/-- A structured-output model stub that approves. -/
def c4Inv : List Message → Crop.ApprovalResponse := fun _ => ⟨true, "ok"⟩

/-- A structured-output model stub that rejects. -/
def c4Inv' : List Message → Crop.ApprovalResponse := fun _ => ⟨false, "bad"⟩

/-- A model reply carrying one tool call. -/
def c5Reply : AIReply :=
  ⟨.str "Cropping now.", some [⟨"cropImage", .crop ⟨0, 0, 1, 1⟩, "call_1"⟩]⟩

/-- A chat-model stub returning `c5Reply`. -/
def c5Invoke : List Message → AIReply := fun _ => c5Reply

/-- A state mid-run, right after a rejection (non-pending approval). -/
def c5State : Crop.State :=
  ⟨[.human (.str "Crop this image.")], some "data:image/png;base64,AAAA", none,
    ⟨.rejected, some "subject cut off"⟩⟩

/-- The tool calls of the arithmetic witness state. -/
def c7Calls : List ToolCall := [⟨"add", .add 3 4, "call_1"⟩]

/-- An arithmetic-agent state whose last message requests one `add` call. -/
def c7State : Arith.State :=
  ⟨[.human (.str "Add 3 and 4."), .ai (.str "") (some c7Calls)]⟩

/-- A state whose last message requests an unregistered tool `mul`:
`toolsByName["mul"]` is `undefined` and the node crashes. -/
def c8State : Arith.State :=
  ⟨[.ai (.str "") (some [⟨"mul", .add 2 3, "call_9"⟩])]⟩

/-- The tool calls of the correlation witness: two registered calls with
distinct ids. -/
def c8Calls : List ToolCall := [⟨"add", .add 1 2, "a1"⟩, ⟨"add", .add 3 4, "b2"⟩]

/-- An arithmetic-agent state whose last message requests `c8Calls`. -/
def c8wState : Arith.State := ⟨[.ai (.str "") (some c8Calls)]⟩

/-- Oracles whose replies are fixed stubs. -/
def c9Oracles : Crop.Oracles :=
  ⟨fun _ => ⟨.str "", none⟩, fun _ => ⟨true, ""⟩, fun _ _ => .ok ""⟩

/-- An arithmetic-agent state with an empty message log. -/
def c9ArithState : Arith.State := ⟨[]⟩

/-- An approval-loop state with an empty message log. -/
def c9CropState : Crop.State := ⟨[], none, none, ⟨.pending, none⟩⟩

/-- Oracles whose chat model replies with an assistant message that itself
carries a long `image_url` part and no tool calls. -/
def c10Oracles : Crop.Oracles :=
  ⟨fun _ => ⟨.parts [.imageUrl "zzzz"], none⟩, fun _ => ⟨false, "no"⟩,
    fun _ _ => .ok "data:image/png;base64,AA"⟩

/-- An initial state whose only message holds a short `image_url`. -/
def c10Start : Crop.State :=
  ⟨[.human (.parts [.text "Crop it.", .imageUrl "ab"])], none, none,
    ⟨.pending, none⟩⟩

/-- The state after the first `llmCall` step of the run from `c10Start`
under `c10Oracles`. -/
def c10After : Crop.State :=
  (Crop.runGraph c10Oracles 1 (some Crop.Node.llmCall, c10Start)).2

/-! ## Theorems -/

/-- C1: for every initial messages list and every sequence of partial
updates, the final `messages` field equals the concatenation of the
initial messages with each update's messages in step order: the reducer is
exactly list concatenation and never drops, reorders or deduplicates. -/
theorem c1_messages_reducer_concat (init : List Message)
    (updates : List (List Message)) :
    finalMessages init updates = init ++ updates.flatten := by
  induction updates generalizing init with
  | nil => simp [finalMessages]
  | cons u us ih =>
    show finalMessages (init ++ u) us = init ++ (u :: us).flatten
    rw [ih]
    simp

/-- C2: the post-model routers of both scripts return `END` when the
latest message is absent or not an assistant message, the tool-call node
name when the latest assistant message carries at least one tool call, and
otherwise the evaluation node name when an evaluation stage exists
(`routeAfterLLM`), else `END` (`shouldContinue`). -/
theorem c2_post_model_router (msgs : List Message) (src crp : Option String)
    (ap : Crop.Approval) :
    Arith.shouldContinue ⟨msgs⟩ =
      (match lastMessage msgs with
       | some (Message.ai _ tcs) =>
         if hasToolCalls tcs then RouteTarget.node "toolNode" else RouteTarget.END
       | _ => RouteTarget.END) ∧
    Crop.routeAfterLLM ⟨msgs, src, crp, ap⟩ =
      (match lastMessage msgs with
       | some (Message.ai _ tcs) =>
         if hasToolCalls tcs then RouteTarget.node "toolNode"
         else RouteTarget.node "approver"
       | _ => RouteTarget.END) := by
  constructor <;>
  · simp only [Arith.shouldContinue, Crop.routeAfterLLM]
    rcases h : lastMessage msgs with _ | m
    · simp
    · cases m <;> simp [isAIMessage, toolCallsOf]

/-- C3: the post-evaluation router returns `END` on an `approved` status,
the feedback-injection node name on `rejected`, and `END` (not an error)
on any other status, i.e. `pending`. -/
theorem c3_post_eval_router (msgs : List Message) (src crp : Option String)
    (st : Crop.ApprovalStatus) (fb : Option String) :
    Crop.routeAfterApprover ⟨msgs, src, crp, ⟨st, fb⟩⟩ =
      (match st with
       | .approved => RouteTarget.END
       | .rejected => RouteTarget.node "addRejectionFeedback"
       | .pending => RouteTarget.END) := by
  cases st <;> rfl

/-- C4: when the cropped image artifact is absent, the evaluation node
returns a partial update setting `approval` to rejected with the fixed
feedback, makes zero model invocations, and its result does not depend on
the model. -/
theorem c4_approver_short_circuit
    (inv inv' : List Message → Crop.ApprovalResponse) (s : Crop.State)
    (h : s.croppedImageDataUri = none) :
    Crop.approverNode inv s =
      ({ approval := some ⟨.rejected, some Crop.noCroppedImageFeedback⟩ }, 0) ∧
    Crop.approverNode inv s = Crop.approverNode inv' s := by
  constructor <;> simp [Crop.approverNode, h, isFalsyStrOpt]

/-- C4 witness: the short circuit on a concrete state without a cropped
image, under two distinct model stubs. -/
theorem c4_witness :
    Crop.approverNode c4Inv c4State =
      ({ approval := some ⟨.rejected, some Crop.noCroppedImageFeedback⟩ }, 0) ∧
    Crop.approverNode c4Inv c4State = Crop.approverNode c4Inv' c4State :=
  c4_approver_short_circuit c4Inv c4Inv' c4State rfl

/-- C5 counterexample: on a concrete state whose approval is a terminal
rejection, a model-call step whose reply carries a tool call still changes
the `approval` field of the merged state (the node always resets it to
pending), so the claim that nothing but `messages` is mutated is false. -/
theorem c5_counterexample :
    hasToolCalls c5Reply.tool_calls = true ∧
    (Crop.llmNode c5Invoke c5State).messages = [c5Reply.toMessage] ∧
    (Crop.applyUpdate c5State (Crop.llmNode c5Invoke c5State)).approval ≠
      c5State.approval := by
  refine ⟨rfl, rfl, ?_⟩
  decide

/-- C5 amended: the arithmetic model-call node's update carries only the
assistant reply appended to `messages`; the image-crop model-call node
additionally always resets `approval` to pending and rewrites
`sourceImageDataUri` with its scan result, but never touches
`croppedImageDataUri`, and appends exactly the assistant reply. -/
theorem c5_frame_amended (invokeA : List Message → AIReply) (sa : Arith.State)
    (invokeC : List Message → AIReply) (s : Crop.State) :
    Arith.llmNode invokeA sa =
      [(invokeA (Arith.systemDirective :: sa.messages)).toMessage] ∧
    (Crop.llmNode invokeC s).croppedImageDataUri = none ∧
    (Crop.applyUpdate s (Crop.llmNode invokeC s)).croppedImageDataUri =
      s.croppedImageDataUri ∧
    (Crop.applyUpdate s (Crop.llmNode invokeC s)).messages =
      s.messages ++
        [(invokeC (Message.system
            (.str (Crop.cropSystemPrompt s.approval.feedback)) :: s.messages)).toMessage] ∧
    (Crop.llmNode invokeC s).approval = some ⟨.pending, none⟩ ∧
    (Crop.llmNode invokeC s).sourceImageDataUri =
      some (Crop.extractSourceUri s.sourceImageDataUri s.messages) :=
  ⟨rfl, rfl, rfl, rfl, rfl, rfl⟩

/-- C6: in the approval-loop graph, every model-call step resets the
approval record to pending (both in its update and in the merged state);
the tool-call and feedback-injection nodes never mention the `approval`
channel; and the evaluation node always writes a terminal status — so a
terminal approval status is produced only by the evaluation node. -/
theorem c6_approval_lifecycle (o : Crop.Oracles) (s : Crop.State) :
    (Crop.nodeUpdate o .llmCall s).approval = some ⟨.pending, none⟩ ∧
    (Crop.applyUpdate s (Crop.nodeUpdate o .llmCall s)).approval =
      ⟨.pending, none⟩ ∧
    (Crop.nodeUpdate o .toolNode s).approval = none ∧
    (Crop.nodeUpdate o .addRejectionFeedback s).approval = none ∧
    approvalStatusOf (Crop.nodeUpdate o .approver s) ≠ some .pending ∧
    approvalStatusOf (Crop.nodeUpdate o .approver s) ≠ none := by
  refine ⟨rfl, rfl, rfl, rfl, ?_, ?_⟩ <;>
  · simp only [Crop.nodeUpdate, Crop.approverNode, approvalStatusOf]
    split
    · simp
    · split <;> simp

/-- C9: reading the latest entry is total: on an empty message log the
lookup yields `none` rather than an error, and the routers and the
tool-call nodes of both scripts handle the empty case by terminating or
producing no tool results. -/
theorem c9_empty_log_total (o : Crop.Oracles) (sa : Arith.State)
    (sc : Crop.State) (ha : sa.messages = []) (hc : sc.messages = []) :
    lastMessage sa.messages = none ∧
    Arith.shouldContinue sa = RouteTarget.END ∧
    Arith.toolNode sa = .ok [] ∧
    Crop.routeAfterLLM sc = RouteTarget.END ∧
    (Crop.toolNode o sc).messages = [] := by
  obtain ⟨ms⟩ := sa
  obtain ⟨mc, src, crp, ap⟩ := sc
  simp only at ha hc
  subst ha
  subst hc
  exact ⟨rfl, rfl, rfl, rfl, rfl⟩

/-- The tool message of a resolving call carries the call's id. -/
theorem expectedToolMessage_id (tc : ToolCall) :
    toolCallIdOf (Arith.expectedToolMessage tc) = some tc.id := by
  unfold Arith.expectedToolMessage
  cases Arith.toolsByName tc.name with
  | none => rfl
  | some f => cases h : f tc.args <;> simp [h, toolCallIdOf]

/-- The tool message of a call is a tool-result entry. -/
theorem expectedToolMessage_isToolResult (tc : ToolCall) :
    isToolResultMsg (Arith.expectedToolMessage tc) = true := by
  unfold Arith.expectedToolMessage
  cases Arith.toolsByName tc.name with
  | none => rfl
  | some f => cases h : f tc.args <;> simp [h, isToolResultMsg]

/-- When every call resolves, the tool loop of `langgraph.ts` succeeds and
produces exactly the map of expected tool messages, in request order. -/
theorem runToolCalls_ok (tcs : List ToolCall)
    (h : ∀ tc ∈ tcs, Arith.resolvesCall tc = true) :
    Arith.runToolCalls tcs = .ok (tcs.map Arith.expectedToolMessage) := by
  induction tcs with
  | nil => rfl
  | cons tc rest ih =>
    have htc : Arith.resolvesCall tc = true := h tc (List.mem_cons_self tc rest)
    have hrest := ih fun x hx => h x (List.mem_cons_of_mem tc hx)
    unfold Arith.resolvesCall at htc
    cases hname : Arith.toolsByName tc.name with
    | none => rw [hname] at htc; simp at htc
    | some f =>
      rw [hname] at htc
      simp only at htc
      cases hargs : f tc.args with
      | error e => rw [hargs] at htc; simp at htc
      | ok v =>
        simp [Arith.runToolCalls, Arith.expectedToolMessage, hname, hargs, hrest]

/-- Counting tool results by id: with nodup ids, each requested id is
carried by exactly one produced tool message. -/
theorem filter_expected_id (tcs : List ToolCall) (X : String)
    (h3 : (tcs.map ToolCall.id).Nodup) (hX : X ∈ tcs.map ToolCall.id) :
    ((tcs.map Arith.expectedToolMessage).filter
        (fun m => toolCallIdOf m == some X)).length = 1 := by
  rw [List.filter_map, List.length_map]
  have heq :
      tcs.filter ((fun m => toolCallIdOf m == some X) ∘ Arith.expectedToolMessage)
        = tcs.filter (fun tc => tc.id == X) :=
    List.filter_congr fun tc _ => by simp [Function.comp, expectedToolMessage_id]
  rw [heq, ← List.countP_eq_length_filter]
  have hc : List.countP (fun i => i == X) (tcs.map ToolCall.id) = 1 := by
    rw [← List.count_eq_countP]
    exact List.count_eq_one_of_mem h3 hX
  rw [List.countP_map] at hc
  simpa [Function.comp] using hc

/-- C7: when the latest message is an assistant message with tool-call
requests that all resolve (registered tool, valid arguments), the
tool-call node invokes the registered tool on each request and returns
exactly one tool-result entry per request, in request order, each carrying
the request's id. -/
theorem c7_tool_node (s : Arith.State) (c : Content) (tcs : List ToolCall)
    (h1 : lastMessage s.messages = some (Message.ai c (some tcs)))
    (h2 : ∀ tc ∈ tcs, Arith.resolvesCall tc = true) :
    Arith.toolNode s = .ok (tcs.map Arith.expectedToolMessage) ∧
    (tcs.map Arith.expectedToolMessage).map toolCallIdOf =
      tcs.map (fun tc => some tc.id) ∧
    (tcs.map Arith.expectedToolMessage).length = tcs.length ∧
    (tcs.map Arith.expectedToolMessage).all isToolResultMsg = true := by
  refine ⟨?_, ?_, by simp, ?_⟩
  · simp only [Arith.toolNode, h1]
    simp [isAIMessage, toolCallsOf, runToolCalls_ok tcs h2]
  · simp [List.map_map, Function.comp, expectedToolMessage_id]
  · simp only [List.all_eq_true]
    intro m hm
    obtain ⟨tc, _, rfl⟩ := List.mem_map.1 hm
    exact expectedToolMessage_isToolResult tc

/-- C7 witness: the `add` call of Scenario A on a concrete state. -/
theorem c7_witness :
    Arith.toolNode c7State = .ok (c7Calls.map Arith.expectedToolMessage) ∧
    (c7Calls.map Arith.expectedToolMessage).map toolCallIdOf =
      c7Calls.map (fun tc => some tc.id) ∧
    (c7Calls.map Arith.expectedToolMessage).length = c7Calls.length ∧
    (c7Calls.map Arith.expectedToolMessage).all isToolResultMsg = true :=
  c7_tool_node c7State (.str "") c7Calls rfl (by decide)

/-- C8 counterexample: a request naming the unregistered tool `mul` makes
the tool node fail with a JS `TypeError`, not with a `ProtocolError` (no
`ProtocolError` exists in the code), and its correlation id `call_9` is
answered by no tool-result entry at all. -/
theorem c8_counterexample :
    Arith.toolNode c8State = .error RunError.typeError ∧
    RunError.typeError ≠ RunError.protocolError :=
  ⟨rfl, by decide⟩

/-- C8 amended: when every request of the latest assistant message
resolves and the request ids are distinct, each request id is matched by
exactly one tool-result entry carrying that id before the next model-call
step (the `toolNode → llmCall` edge). -/
theorem c8_correlation (s : Arith.State) (c : Content) (tcs : List ToolCall)
    (X : String)
    (h1 : lastMessage s.messages = some (Message.ai c (some tcs)))
    (h2 : ∀ tc ∈ tcs, Arith.resolvesCall tc = true)
    (h3 : (tcs.map ToolCall.id).Nodup) (hX : X ∈ tcs.map ToolCall.id) :
    (Arith.toolNode s).map
        (fun msgs => (msgs.filter (fun m => toolCallIdOf m == some X)).length) =
      .ok 1 := by
  have hrun : Arith.toolNode s = .ok (tcs.map Arith.expectedToolMessage) := by
    simp only [Arith.toolNode, h1]
    simp [isAIMessage, toolCallsOf, runToolCalls_ok tcs h2]
  rw [hrun]
  simp only [Except.map]
  rw [filter_expected_id tcs X h3 hX]

/-- C8 witness: two `add` calls with distinct ids; the id `a1` is carried
by exactly one result. -/
theorem c8_witness :
    (Arith.toolNode c8wState).map
        (fun msgs =>
          (msgs.filter (fun m => toolCallIdOf m == some "a1")).length) =
      .ok 1 :=
  c8_correlation c8wState (.str "") c8Calls "a1" rfl (by decide) (by decide)
    (by decide)

/-- C9 witness: the empty-log case at concrete empty states. -/
theorem c9_witness :
    lastMessage c9ArithState.messages = none ∧
    Arith.shouldContinue c9ArithState = RouteTarget.END ∧
    Arith.toolNode c9ArithState = .ok [] ∧
    Crop.routeAfterLLM c9CropState = RouteTarget.END ∧
    (Crop.toolNode c9Oracles c9CropState).messages = [] :=
  c9_empty_log_total c9Oracles c9ArithState c9CropState rfl rfl

/-- A non-empty string has positive length. -/
theorem length_pos_of_ne_empty {u : String} (h : u ≠ "") : 0 < u.length := by
  rcases u with ⟨data⟩
  cases data with
  | nil => exact absurd (String.ext rfl) h
  | cons c cs => exact Nat.succ_pos _

/-- One extraction step never shortens the tracked source value. -/
theorem strLen_updateSourceUri_ge (cur : Option String) (url : String) :
    strLen cur ≤ strLen (Crop.updateSourceUri cur url) := by
  unfold Crop.updateSourceUri
  split
  · exact Nat.le_refl _
  · split
    · rename_i hcond
      simp only [Bool.or_eq_true, decide_eq_true_eq] at hcond
      rcases hcond with hf | hlt
      · cases cur with
        | none => exact Nat.zero_le _
        | some s =>
          have hs : s = "" := by
            simpa [isFalsyStrOpt, String.isEmpty_iff] using hf
          subst hs
          simp [strLen]
      · exact Nat.le_of_lt hlt
    · exact Nat.le_refl _

/-- The extraction fold never shortens the tracked source value. -/
theorem strLen_foldl_updateSourceUri_ge (l : List String) (acc : Option String) :
    strLen acc ≤ strLen (l.foldl Crop.updateSourceUri acc) := by
  induction l generalizing acc with
  | nil => exact Nat.le_refl _
  | cons u l ih => exact Nat.le_trans (strLen_updateSourceUri_ge acc u) (ih _)

/-- The extraction fold dominates the length of every url it visits. -/
theorem mem_le_strLen_foldl (l : List String) :
    ∀ (acc : Option String) (u : String), u ∈ l →
      u.length ≤ strLen (l.foldl Crop.updateSourceUri acc) := by
  induction l with
  | nil =>
    intro acc u hu
    cases hu
  | cons v l ih =>
    intro acc u hu
    rcases List.mem_cons.1 hu with rfl | h
    · refine Nat.le_trans ?_ (strLen_foldl_updateSourceUri_ge l _)
      unfold Crop.updateSourceUri
      split
      · rename_i h0
        subst h0
        simp
      · split
        · exact Nat.le_refl _
        · rename_i hcond
          simp only [Bool.or_eq_true, decide_eq_true_eq, not_or,
            Bool.not_eq_true] at hcond
          exact Nat.le_of_not_lt hcond.2
    · exact ih _ u h

/-- The nested extraction loop of `llmNode` equals a single fold over the
urls of the log. -/
theorem extractSourceUri_eq_foldl (msgs : List Message) :
    ∀ cur, Crop.extractSourceUri cur msgs =
      (Crop.logUrls msgs).foldl Crop.updateSourceUri cur := by
  induction msgs with
  | nil =>
    intro cur
    rfl
  | cons m msgs ih =>
    intro cur
    show Crop.extractSourceUri
        ((Crop.contentUrls (contentOf m)).foldl Crop.updateSourceUri cur) msgs = _
    rw [ih]
    simp [Crop.logUrls, List.foldl_append]

/-- A changed extraction step replaced the value by the visited url, which
was strictly longer than the current value or the current value was
absent. -/
theorem updateSourceUri_changed (cur : Option String) (u : String)
    (h : Crop.updateSourceUri cur u ≠ cur) :
    Crop.updateSourceUri cur u = some u ∧
      (cur = none ∨ strLen cur < u.length) := by
  by_cases hne : u = ""
  · exact absurd (by simp [Crop.updateSourceUri, hne]) h
  · by_cases hcond : (isFalsyStrOpt cur || decide (strLen cur < u.length)) = true
    · have heq : Crop.updateSourceUri cur u = some u := by
        simp only [Crop.updateSourceUri, if_neg hne, if_pos hcond]
      refine ⟨heq, ?_⟩
      simp only [Bool.or_eq_true, decide_eq_true_eq] at hcond
      rcases hcond with hf | hlt
      · cases cur with
        | none => exact Or.inl rfl
        | some s =>
          right
          have hs : s = "" := by
            simpa [isFalsyStrOpt, String.isEmpty_iff] using hf
          subst hs
          simpa [strLen] using length_pos_of_ne_empty hne
      · exact Or.inr hlt
    · exact absurd (by simp [Crop.updateSourceUri, hne, hcond]) h

/-- The extraction fold either leaves the value unchanged or ends at one
of the visited urls, under the replacement condition relative to the
initial value. -/
theorem foldl_updateSourceUri_spec (l : List String) :
    ∀ cur, l.foldl Crop.updateSourceUri cur = cur ∨
      ∃ v, v ∈ l ∧ l.foldl Crop.updateSourceUri cur = some v ∧
        (cur = none ∨ strLen cur < v.length) := by
  induction l with
  | nil =>
    intro cur
    exact Or.inl rfl
  | cons u l ih =>
    intro cur
    by_cases hch : Crop.updateSourceUri cur u = cur
    · rw [List.foldl_cons, hch]
      rcases ih cur with h | ⟨v, hv, he, hc⟩
      · exact Or.inl h
      · exact Or.inr ⟨v, List.mem_cons_of_mem _ hv, he, hc⟩
    · obtain ⟨heq, hcond⟩ := updateSourceUri_changed cur u hch
      rw [List.foldl_cons, heq]
      rcases ih (some u) with h | ⟨v, hv, he, hc⟩
      · exact Or.inr ⟨u, List.mem_cons_self u l, by rw [h], hcond⟩
      · refine Or.inr ⟨v, List.mem_cons_of_mem _ hv, he, ?_⟩
        rcases hc with h0 | hlt
        · cases h0
        · rcases hcond with h0 | hlt2
          · exact Or.inl h0
          · exact Or.inr (Nat.lt_trans hlt2 hlt)

/-- The extraction always respects the replacement condition. -/
theorem replacedProperly_true (cur : Option String) (msgs : List Message) :
    replacedProperly cur msgs = true := by
  unfold replacedProperly
  rw [extractSourceUri_eq_foldl]
  rcases foldl_updateSourceUri_spec (Crop.logUrls msgs) cur with h | ⟨v, hv, he, hc⟩
  · simp [h]
  · simp only [Bool.or_eq_true, List.any_eq_true]
    refine Or.inr ⟨v, hv, ?_⟩
    rcases hc with h0 | hlt
    · subst h0
      simp [he]
    · simp [he, hlt]

/-- One graph step never shortens `sourceImageDataUri`: only `llmCall`
writes the channel, and it writes the extraction result. -/
theorem stepGraph_source_mono (o : Crop.Oracles)
    (p : Option Crop.Node × Crop.State) :
    strLen p.2.sourceImageDataUri ≤
      strLen (Crop.stepGraph o p).2.sourceImageDataUri := by
  obtain ⟨n, s⟩ := p
  cases n with
  | none => exact Nat.le_refl _
  | some n =>
    cases n with
    | llmCall =>
      have hsrc : (Crop.applyUpdate s (Crop.nodeUpdate o .llmCall s)).sourceImageDataUri
          = Crop.extractSourceUri s.sourceImageDataUri s.messages := rfl
      show strLen s.sourceImageDataUri ≤
        strLen (Crop.applyUpdate s (Crop.nodeUpdate o .llmCall s)).sourceImageDataUri
      rw [hsrc, extractSourceUri_eq_foldl]
      exact strLen_foldl_updateSourceUri_ge _ _
    | toolNode => exact Nat.le_refl _
    | approver =>
      show strLen s.sourceImageDataUri ≤
        strLen (Crop.applyUpdate s (Crop.nodeUpdate o .approver s)).sourceImageDataUri
      simp only [Crop.nodeUpdate, Crop.approverNode]
      split <;> exact Nat.le_refl _
    | addRejectionFeedback => exact Nat.le_refl _

/-- Across any number of executor steps, the length of
`sourceImageDataUri` never decreases. -/
theorem runGraph_source_mono (o : Crop.Oracles) (k : Nat) :
    ∀ p : Option Crop.Node × Crop.State,
      strLen p.2.sourceImageDataUri ≤
        strLen (Crop.runGraph o k p).2.sourceImageDataUri := by
  induction k with
  | zero =>
    intro p
    exact Nat.le_refl _
  | succ k ih =>
    intro p
    exact Nat.le_trans (stepGraph_source_mono o p) (ih _)

/-- C10 counterexample: one `llmCall` step whose model reply itself
carries a long `image_url` part leaves `sourceImageDataUri` at the
short url of the pre-scan log, while the merged log now holds the longer
url — the state does not hold the longest `image_url` of its own message
log. -/
theorem c10_counterexample :
    "zzzz" ∈ Crop.logUrls c10After.messages ∧
    c10After.sourceImageDataUri = some "ab" ∧
    strLen c10After.sourceImageDataUri < String.length "zzzz" := by
  refine ⟨?_, ?_, ?_⟩ <;> decide

/-- C10 amended: the extraction replaces `sourceImageDataUri` only with an
`image_url` strictly longer than the current value (or when the current
value is absent); its length never decreases across any run; and at every
model-call scan the result dominates the current value and every
`image_url` of the log as it stood at scan time (urls appended later,
including by that step's own reply, are only picked up at the next
model-call step). -/
theorem c10_source_invariant (o : Crop.Oracles) (k : Nat)
    (p : Option Crop.Node × Crop.State) (cur : Option String)
    (msgs : List Message) (u : String) (hu : u ∈ Crop.logUrls msgs) :
    strLen p.2.sourceImageDataUri ≤
      strLen (Crop.runGraph o k p).2.sourceImageDataUri ∧
    strLen cur ≤ strLen (Crop.extractSourceUri cur msgs) ∧
    u.length ≤ strLen (Crop.extractSourceUri cur msgs) ∧
    replacedProperly cur msgs = true := by
  refine ⟨runGraph_source_mono o k p, ?_, ?_, replacedProperly_true cur msgs⟩
  · rw [extractSourceUri_eq_foldl]
    exact strLen_foldl_updateSourceUri_ge _ _
  · rw [extractSourceUri_eq_foldl]
    exact mem_le_strLen_foldl _ _ u hu

/-- C10 witness: the invariant at the concrete initial state, one step,
and the url `ab` of its log. -/
theorem c10_witness :
    strLen (some Crop.Node.llmCall, c10Start).2.sourceImageDataUri ≤
      strLen (Crop.runGraph c10Oracles 1
        (some Crop.Node.llmCall, c10Start)).2.sourceImageDataUri ∧
    strLen none ≤ strLen (Crop.extractSourceUri none c10Start.messages) ∧
    String.length "ab" ≤ strLen (Crop.extractSourceUri none c10Start.messages) ∧
    replacedProperly none c10Start.messages = true :=
  c10_source_invariant c10Oracles 1 (some Crop.Node.llmCall, c10Start) none
    c10Start.messages "ab" (by decide)

end TryLangGraph
